import Mathlib

/-!
Shallow embedding of the DICe triangulation and camera-geometry subsystem
(src/src/core/DICe_Triangulation.cpp) over exact rational arithmetic.

Modelling conventions:
* `scalar_t` values are embedded as `ℚ` (exact arithmetic form of the spec).
* Transcendental evaluation: the source computes `cos(theta*pi/180)` and
  `sin(theta*pi/180)`.  This evaluation is abstracted as an oracle
  `trig : ℚ → ℚ × ℚ` mapping an angle in degrees to its (cosine, sine) pair;
  `GoodTrig` records the Pythagorean identity the real functions satisfy.
* LAPACK GETRF/GETRI (an external dense-linear-algebra collaborator) is
  modelled by `matInv`, the adjugate-based inverse, raising
  `SingularMatrixError` exactly when the determinant vanishes, which is the
  error contract the surrounding code installs for the inversion calls.
* Fallible operations return `Except Err` / error constructors mirroring the
  error taxonomy of the design (ParseError, SingularMatrixError, ...); C++
  assertions are modelled by the `AssertionError` constructor.
* File I/O is modelled at the parsed-token level: the loaders receive the
  numeric values the tokenizer would produce, the estimator receives the
  tokenized correspondence lines.
-/

open scoped Matrix

namespace DICe

/-- Error taxonomy of the design (section 7 of the specification). -/
inductive Err where
  | ParseError
  | UnsupportedFormatError
  | InvalidIntrinsicsError
  | SingularMatrixError
  | InsufficientDataError
  | NotInitializedError
  | OptimizationError
  | AssertionError
deriving DecidableEq

instance {ε α : Type} [DecidableEq ε] [DecidableEq α] : DecidableEq (Except ε α) := fun a b =>
  match a, b with
  | .ok x, .ok y => decidable_of_iff (x = y) (by simp)
  | .error x, .error y => decidable_of_iff (x = y) (by simp)
  | .ok _, .error _ => isFalse (by simp)
  | .error _, .ok _ => isFalse (by simp)

/-- Calibration state of a `Triangulation` object: per-camera intrinsics
`cal_intrinsics_` (index order: cx cy fx fy fs k1 k2 k3), the camera0-to-camera1
transform `cal_extrinsics_` and the camera0-to-world transform
`trans_extrinsics_`. -/
structure Calibration where
  cal_intrinsics : Fin 2 → Fin 8 → ℚ
  cal_extrinsics : Matrix (Fin 4) (Fin 4) ℚ
  trans_extrinsics : Matrix (Fin 4) (Fin 4) ℚ
deriving DecidableEq

/-- Adjugate-based inverse of a square rational matrix; models the
GETRF/GETRI in-place inversion used by `Triangulation::invert_transform` and
by the normal-equation solve in `Triangulation::triangulate`. -/
def matInv {n : ℕ} (A : Matrix (Fin n) (Fin n) ℚ) : Matrix (Fin n) (Fin n) ℚ :=
  (A.det)⁻¹ • A.adjugate

theorem matInv_eq_inv {n : ℕ} (A : Matrix (Fin n) (Fin n) ℚ) : matInv A = A⁻¹ := by
  rw [Matrix.inv_def, Ring.inverse_eq_inv']
  rfl

theorem matInv_mul {n : ℕ} (A : Matrix (Fin n) (Fin n) ℚ) (h : A.det ≠ 0) :
    matInv A * A = 1 := by
  rw [matInv_eq_inv]
  exact Matrix.nonsing_inv_mul A (isUnit_iff_ne_zero.mpr h)

/-- Source function `Triangulation::convert_CB_angles_to_T`: builds the 4x4 homogeneous
transform from Cardan-Bryant angles (degrees) and a translation.  The source
evaluates `cos`/`sin` of the angle converted to radians; that transcendental
step is the `trig` oracle here. -/
def convert_CB_angles_to_T (trig : ℚ → ℚ × ℚ)
    (alpha beta gamma tx ty tz : ℚ) : Matrix (Fin 4) (Fin 4) ℚ :=
  let cx := (trig alpha).1
  let sx := (trig alpha).2
  let cy := (trig beta).1
  let sy := (trig beta).2
  let cz := (trig gamma).1
  let sz := (trig gamma).2
  Matrix.of
    ![![cy*cz, sx*sy*cz - cx*sz, cx*sy*cz + sx*sz, tx],
      ![cy*sz, sx*sy*sz + cx*cz, cx*sy*sz - sx*cz, ty],
      ![-sy, sx*cy, cx*cy, tz],
      ![0, 0, 0, 1]]

/-- A trig oracle is good when it satisfies the Pythagorean identity, as the
real cosine/sine evaluated by the source do. -/
def GoodTrig (trig : ℚ → ℚ × ℚ) : Prop :=
  ∀ theta : ℚ, (trig theta).1 ^ 2 + (trig theta).2 ^ 2 = 1

theorem det_convert_CB (trig : ℚ → ℚ × ℚ) (alpha beta gamma tx ty tz : ℚ) :
    (convert_CB_angles_to_T trig alpha beta gamma tx ty tz).det =
      ((trig alpha).1 ^ 2 + (trig alpha).2 ^ 2) *
        (((trig beta).1 ^ 2 + (trig beta).2 ^ 2) *
          (((trig gamma).1 ^ 2 + (trig gamma).2 ^ 2))) := by
  simp [convert_CB_angles_to_T, Matrix.det_succ_row_zero, Fin.sum_univ_succ,
    Fin.succAbove, Fin.lt_def, Fin.castSucc, Fin.castAdd, Fin.castLE]
  ring

theorem det_convert_CB_good {trig : ℚ → ℚ × ℚ} (h : GoodTrig trig)
    (alpha beta gamma tx ty tz : ℚ) :
    (convert_CB_angles_to_T trig alpha beta gamma tx ty tz).det = 1 := by
  rw [det_convert_CB, h alpha, h beta, h gamma]
  norm_num

/-- The four sequential principal-point checks performed at the end of
`Triangulation::load_calibration_parameters` (source lines 264-267): a
non-positive cx or cy of either camera raises (InvalidIntrinsicsError). -/
def checkIntrinsics (c : Calibration) : Except Err Calibration :=
  if c.cal_intrinsics 0 0 ≤ 0 then .error .InvalidIntrinsicsError
  else if c.cal_intrinsics 0 1 ≤ 0 then .error .InvalidIntrinsicsError
  else if c.cal_intrinsics 1 0 ≤ 0 then .error .InvalidIntrinsicsError
  else if c.cal_intrinsics 1 1 ≤ 0 then .error .InvalidIntrinsicsError
  else .ok c

/-- Format A (vic3D xml) branch of `load_calibration_parameters`, modelled
from the point where the tokenizer has produced exactly two camera records:
8 intrinsic values and 6 Cardan-Bryant pose values per camera.  Camera 0's
pose is inverted in place (`invert_transform`) and stored as
`trans_extrinsics_`; `cal_extrinsics_` accumulates the product
(camera 1 pose) * (camera 0 pose inverse). -/
def loadFormatA (trig : ℚ → ℚ × ℚ) (intr0 intr1 : Fin 8 → ℚ)
    (orient0 orient1 : Fin 6 → ℚ) : Except Err Calibration :=
  let T0 := convert_CB_angles_to_T trig (orient0 0) (orient0 1) (orient0 2)
    (orient0 3) (orient0 4) (orient0 5)
  let T1 := convert_CB_angles_to_T trig (orient1 0) (orient1 1) (orient1 2)
    (orient1 3) (orient1 4) (orient1 5)
  if T0.det = 0 then .error .SingularMatrixError
  else
    checkIntrinsics
      { cal_intrinsics := ![intr0, intr1]
        cal_extrinsics := T1 * matInv T0
        trans_extrinsics := matInv T0 }

/-- Format B (generic txt) branch of `load_calibration_parameters`, modelled
from the list of numeric values parsed from the non-comment lines.  Expects
exactly 22 or 28 values, else raises (ParseError); values 0-15 fill the two
intrinsics blocks, 16-21 convert to the camera0-to-camera1 transform, and
values 22-27, when present, convert to a pose that is inverted to produce the
camera0-to-world transform, which otherwise stays the identity. -/
def loadFormatB (trig : ℚ → ℚ × ℚ) (vals : List ℚ) : Except Err Calibration :=
  if vals.length = 22 ∨ vals.length = 28 then
    let intr : Fin 2 → Fin 8 → ℚ := fun i j => vals.getD (8 * i.val + j.val) 0
    let calE := convert_CB_angles_to_T trig (vals.getD 16 0) (vals.getD 17 0)
      (vals.getD 18 0) (vals.getD 19 0) (vals.getD 20 0) (vals.getD 21 0)
    if vals.length = 28 then
      let Tc := convert_CB_angles_to_T trig (vals.getD 22 0) (vals.getD 23 0)
        (vals.getD 24 0) (vals.getD 25 0) (vals.getD 26 0) (vals.getD 27 0)
      if Tc.det = 0 then .error .SingularMatrixError
      else
        checkIntrinsics
          { cal_intrinsics := intr
            cal_extrinsics := calE
            trans_extrinsics := matInv Tc }
    else
      checkIntrinsics
        { cal_intrinsics := intr
          cal_extrinsics := calE
          trans_extrinsics := 1 }
  else .error .ParseError

/-- Source function `Triangulation::correct_lens_distortion_radial` for camera `camera_id`:
single-pass radial correction of a sensor coordinate. -/
def correct_lens_distortion_radial (cal : Calibration) (camera_id : Fin 2)
    (x_s y_s : ℚ) : ℚ × ℚ :=
  let cx := cal.cal_intrinsics camera_id 0
  let cy := cal.cal_intrinsics camera_id 1
  let r1 := (x_s - cx) / cx
  let r2 := (y_s - cy) / cy
  let rho_tilde := r1 * r1 + r2 * r2
  let factor := cal.cal_intrinsics camera_id 5 * rho_tilde
    + cal.cal_intrinsics camera_id 6 * rho_tilde * rho_tilde
    + cal.cal_intrinsics camera_id 7 * rho_tilde * rho_tilde * rho_tilde
  (x_s - factor * r1 * cx, y_s - factor * r2 * cy)

/-- The 4x3 design matrix M of `Triangulation::triangulate` (source lines
354-372), built from the (possibly distortion-corrected) sensor coordinates,
the two cameras' intrinsics and the camera0-to-camera1 extrinsics. -/
def triM (cal : Calibration) (xc0 yc0 xc1 yc1 : ℚ) : Matrix (Fin 4) (Fin 3) ℚ :=
  let E := cal.cal_extrinsics
  let cmx := cal.cal_intrinsics 1 0 - xc1
  let cmy := cal.cal_intrinsics 1 1 - yc1
  Matrix.of
    ![![cal.cal_intrinsics 0 2, cal.cal_intrinsics 0 4, cal.cal_intrinsics 0 0 - xc0],
      ![0, cal.cal_intrinsics 0 3, cal.cal_intrinsics 0 1 - yc0],
      ![cmx * E 2 0 + cal.cal_intrinsics 1 2 * E 0 0 + cal.cal_intrinsics 1 4 * E 1 0,
        cmx * E 2 1 + cal.cal_intrinsics 1 2 * E 0 1 + cal.cal_intrinsics 1 4 * E 1 1,
        cmx * E 2 2 + cal.cal_intrinsics 1 2 * E 0 2 + cal.cal_intrinsics 1 4 * E 1 2],
      ![cmy * E 2 0 + cal.cal_intrinsics 1 3 * E 1 0,
        cmy * E 2 1 + cal.cal_intrinsics 1 3 * E 1 1,
        cmy * E 2 2 + cal.cal_intrinsics 1 3 * E 1 2]]

/-- The right-hand-side 4-vector r of `Triangulation::triangulate` (source
lines 374-376); entries 0 and 1 stay cleared at zero. -/
def triR (cal : Calibration) (xc1 yc1 : ℚ) : Fin 4 → ℚ :=
  let E := cal.cal_extrinsics
  let cmx := cal.cal_intrinsics 1 0 - xc1
  let cmy := cal.cal_intrinsics 1 1 - yc1
  ![0, 0,
    -(cal.cal_intrinsics 1 2) * E 0 3 - cal.cal_intrinsics 1 4 * E 1 3 - cmx * E 2 3,
    -(cal.cal_intrinsics 1 3) * E 1 3 - cmy * E 2 3]

/-- The function-local persistent (static) buffers of
`Triangulation::triangulate` (source lines 305-333), carried across calls.
The LAPACK pivot/workspace arrays (IPIV, WORK, INFO) belong to the external
linear-algebra collaborator and are not observable, so they are not tracked.
In the field `MTM` the matrix is stored post-inversion on the success path,
mirroring the in-place GETRI overwrite. -/
structure TriScratch where
  xc0 : ℚ
  yc0 : ℚ
  xc1 : ℚ
  yc1 : ℚ
  M : Matrix (Fin 4) (Fin 3) ℚ
  MTM : Matrix (Fin 3) (Fin 3) ℚ
  MTMMT : Matrix (Fin 3) (Fin 4) ℚ
  r : Fin 4 → ℚ
  XYZc0 : Fin 4 → ℚ
  XYZ : Fin 4 → ℚ
  cmx : ℚ
  cmy : ℚ
deriving DecidableEq

/-- Zero-initialized scratch buffers, as static storage starts out. -/
def zeroScratch : TriScratch :=
  ⟨0, 0, 0, 0, 0, 0, 0, 0, 0, 0, 0, 0⟩

/-- State of a `Triangulation` object: the loaded calibration, the homography
coefficients `projectives_`, and the persistent scratch buffers of
`triangulate`. -/
structure TriState where
  calib : Calibration
  projectives : Option (Fin 8 → ℚ)
  scratch : TriScratch

/-- Modelled from the spec: the `Triangulation` constructor (declared in the
header, which is not among the shown sources) loads a calibration and leaves
the ProjectiveTransform unset until `estimate` runs, so `projectives_` starts
out absent ("Requires a previously estimated ProjectiveTransform; fails with
NotInitializedError otherwise"). -/
def initTriState (c : Calibration) : TriState :=
  ⟨c, none, zeroScratch⟩

/-- Source function `Triangulation::triangulate`: optional radial distortion correction, the
4x3 least-squares system M p = r, normal-equations solve through the inverse
of M-transpose-M (SingularMatrixError if that 3x3 matrix is not invertible),
homogeneous 4th coordinate fixed at 1, then the camera0-to-world transform.
Returns the (camera-0-frame, world-frame) points and the updated object
state; every scratch buffer is rewritten before use. -/
def triangulate (st : TriState) (x0 y0 x1 y1 : ℚ)
    (correct_lens_distortion : Bool) :
    Except Err ((ℚ × ℚ × ℚ) × (ℚ × ℚ × ℚ)) × TriState :=
  let cal := st.calib
  let p0 := if correct_lens_distortion then
    correct_lens_distortion_radial cal 0 x0 y0 else (x0, y0)
  let p1 := if correct_lens_distortion then
    correct_lens_distortion_radial cal 1 x1 y1 else (x1, y1)
  let xc0 := p0.1
  let yc0 := p0.2
  let xc1 := p1.1
  let yc1 := p1.2
  let cmx := cal.cal_intrinsics 1 0 - xc1
  let cmy := cal.cal_intrinsics 1 1 - yc1
  let M := triM cal xc0 yc0 xc1 yc1
  let rv := triR cal xc1 yc1
  let MTM := Mᵀ * M
  if MTM.det = 0 then
    (.error .SingularMatrixError,
      { st with scratch := ⟨xc0, yc0, xc1, yc1, M, MTM, 0, rv, 0, 0, cmx, cmy⟩ })
  else
    let MTMi := matInv MTM
    let MTMMT := MTMi * Mᵀ
    let p := MTMMT.mulVec rv
    let XYZc0 : Fin 4 → ℚ := ![p 0, p 1, p 2, 1]
    let XYZ := cal.trans_extrinsics.mulVec XYZc0
    (.ok ((p 0, p 1, p 2), (XYZ 0, XYZ 1, XYZ 2)),
      { st with scratch := ⟨xc0, yc0, xc1, yc1, M, MTMi, MTMMT, rv, XYZc0, XYZ, cmx, cmy⟩ })

/-- The 3x4 camera-1 intrinsics matrix F2 of
`Triangulation::project_camera_0_to_sensor_1` (source lines 465-471). -/
def F2mat (cal : Calibration) : Matrix (Fin 3) (Fin 4) ℚ :=
  Matrix.of
    ![![cal.cal_intrinsics 1 2, cal.cal_intrinsics 1 4, cal.cal_intrinsics 1 0, 0],
      ![0, cal.cal_intrinsics 1 3, cal.cal_intrinsics 1 1, 0],
      ![0, 0, 1, 0]]

/-- The camera-1 projection matrix F2_T = F2 * cal_extrinsics. -/
def F2T (cal : Calibration) : Matrix (Fin 3) (Fin 4) ℚ :=
  F2mat cal * cal.cal_extrinsics

/-- The homogeneous depth psi2: third row of the camera0-to-camera1 transform
applied to the homogeneous point. -/
def psi2 (cal : Calibration) (xc yc zc : ℚ) : ℚ :=
  cal.cal_extrinsics 2 0 * xc + cal.cal_extrinsics 2 1 * yc +
    cal.cal_extrinsics 2 2 * zc + cal.cal_extrinsics 2 3

/-- The xs2 output expression of `project_camera_0_to_sensor_1`. -/
def xs2_val (cal : Calibration) (xc yc zc : ℚ) : ℚ :=
  1 / psi2 cal xc yc zc *
    (F2T cal 0 0 * xc + F2T cal 0 1 * yc + F2T cal 0 2 * zc + F2T cal 0 3)

/-- The ys2 output expression of `project_camera_0_to_sensor_1`. -/
def ys2_val (cal : Calibration) (xc yc zc : ℚ) : ℚ :=
  1 / psi2 cal xc yc zc *
    (F2T cal 1 0 * xc + F2T cal 1 1 * yc + F2T cal 1 2 * zc + F2T cal 1 3)

/-- The recovered homogeneous depth z2 of `project_camera_0_to_sensor_1`. -/
def z2_val (cal : Calibration) (xc yc zc : ℚ) : ℚ :=
  1 / psi2 cal xc yc zc *
    (F2T cal 2 0 * xc + F2T cal 2 1 * yc + F2T cal 2 2 * zc + F2T cal 2 3)

/-- Source function `Triangulation::project_camera_0_to_sensor_1`: forward-projects a
camera-0-frame point to camera-1 sensor coordinates.  The two C++ assertions
(psi2 nonzero; recovered homogeneous depth within 0.1 of 1) are modelled as
the error branches. -/
def project_camera_0_to_sensor_1 (cal : Calibration) (xc yc zc : ℚ) :
    Except Err (ℚ × ℚ) :=
  if psi2 cal xc yc zc = 0 then .error .AssertionError
  else if |z2_val cal xc yc zc - 1| < 1 / 10 then
    .ok (xs2_val cal xc yc zc, ys2_val cal xc yc zc)
  else .error .AssertionError

/-- Modelled from the spec: the analogous pinhole forward projection for
camera 0, used by the round-trip law.  It is `project_camera_0_to_sensor_1`
with camera 0's intrinsics and the identity extrinsics, so the homogeneous
depth is zc itself and the corresponding assertion is zc nonzero. -/
def project_camera_0_to_sensor_0 (cal : Calibration) (xc yc zc : ℚ) :
    Except Err (ℚ × ℚ) :=
  if zc = 0 then .error .AssertionError
  else
    .ok (1 / zc * (cal.cal_intrinsics 0 2 * xc + cal.cal_intrinsics 0 4 * yc +
          cal.cal_intrinsics 0 0 * zc),
        1 / zc * (cal.cal_intrinsics 0 3 * yc + cal.cal_intrinsics 0 1 * zc))

/-- Source function `Triangulation::project_left_to_right_sensor_coords`: applies the
8-parameter ProjectiveTransform directly; requires a previously estimated
transform (the source asserts `projectives_` is non-null). -/
def project_left_to_right_sensor_coords (st : TriState) (xl yl : ℚ) :
    Except Err (ℚ × ℚ) :=
  match st.projectives with
  | none => .error .NotInitializedError
  | some pr =>
    .ok ((pr 0 * xl + pr 1 * yl + pr 2) / (pr 6 * xl + pr 7 * yl + 1),
         (pr 3 * xl + pr 4 * yl + pr 5) / (pr 6 * xl + pr 7 * yl + 1))

/-- Even-numbered DLT design-matrix row contributed by one correspondence
(xl, yl, xr, yr) in `Triangulation::estimate_projective_transform`. -/
def kRow0 (p : ℚ × ℚ × ℚ × ℚ) : Fin 8 → ℚ :=
  ![p.1, p.2.1, 1, 0, 0, 0, -(p.1 * p.2.2.1), -(p.2.1 * p.2.2.1)]

/-- Odd-numbered DLT design-matrix row contributed by one correspondence. -/
def kRow1 (p : ℚ × ℚ × ℚ × ℚ) : Fin 8 → ℚ :=
  ![0, 0, 0, p.1, p.2.1, 1, -(p.1 * p.2.2.2), -(p.2.1 * p.2.2.2)]

/-- Source function `Triangulation::estimate_projective_transform`, modelled from the
tokenized non-empty lines of the correspondence point source: every line must
carry exactly 4 numeric fields (else ParseError), at least 4 correspondences
are required (else InsufficientDataError, raised before the DLT estimate is
computed and before the stored ProjectiveTransform is touched), then the 8x8
normal equations of the DLT system give the initial coefficients and the
derivative-free optimizer `opt` (the external simplex collaborator, returning
the refined coefficients and an iteration count, or nothing on failure, which
becomes OptimizationError) refines them; the refined coefficients are stored
as the new ProjectiveTransform. -/
def estimate_projective_transform
    (opt : (Fin 8 → ℚ) → Option ((Fin 8 → ℚ) × ℕ))
    (lines : List (List ℚ)) (st : TriState) : Except Err TriState :=
  if lines.any (fun l => l.length ≠ 4) then .error .ParseError
  else if lines.length < 4 then .error .InsufficientDataError
  else
    let pts := lines.map (fun l => (l.getD 0 0, l.getD 1 0, l.getD 2 0, l.getD 3 0))
    let KTK : Matrix (Fin 8) (Fin 8) ℚ :=
      (pts.map (fun p => Matrix.vecMulVec (kRow0 p) (kRow0 p) +
        Matrix.vecMulVec (kRow1 p) (kRow1 p))).sum
    let KTu : Fin 8 → ℚ :=
      (pts.map (fun p => p.2.2.1 • kRow0 p + p.2.2.2 • kRow1 p)).sum
    let pInit := (matInv KTK).mulVec KTu
    match opt pInit with
    | none => .error .OptimizationError
    | some (pr, _) => .ok { st with projectives := some pr }

/-- Concrete trig oracle with every angle treated as zero degrees
(cosine 1, sine 0); used for concrete instantiations. -/
def trig0 : ℚ → ℚ × ℚ := fun _ => (1, 0)

/-- A concrete synthetic calibration: unit focal lengths and principal
points, no skew, no distortion, camera 1 translated by one unit along x,
world frame equal to the camera-0 frame. -/
def cal0 : Calibration :=
  { cal_intrinsics := fun _ => ![1, 1, 1, 1, 0, 0, 0, 0]
    cal_extrinsics := Matrix.of ![![1,0,0,1],![0,1,0,0],![0,0,1,0],![0,0,0,1]]
    trans_extrinsics := 1 }

/-- A Format B value list of exactly 22 ones. -/
def vals22 : List ℚ := List.replicate 22 1

/-- The calibration produced by loading `vals22` in Format B with `trig0`. -/
def cal6 : Calibration :=
  { cal_intrinsics := fun i j => vals22.getD (8 * i.val + j.val) 0
    cal_extrinsics := convert_CB_angles_to_T trig0 (vals22.getD 16 0)
      (vals22.getD 17 0) (vals22.getD 18 0) (vals22.getD 19 0)
      (vals22.getD 20 0) (vals22.getD 21 0)
    trans_extrinsics := 1 }

/-- All-ones intrinsics block. -/
def ones8 : Fin 8 → ℚ := fun _ => 1

/-- All-zero intrinsics block (invalid principal point). -/
def zeroIntr : Fin 8 → ℚ := fun _ => 0

/-- All-zero pose values. -/
def zeros6 : Fin 6 → ℚ := fun _ => 0

/-- The pose transform of the zero pose under `trig0`. -/
def T0id : Matrix (Fin 4) (Fin 4) ℚ :=
  convert_CB_angles_to_T trig0 (zeros6 0) (zeros6 1) (zeros6 2) (zeros6 3)
    (zeros6 4) (zeros6 5)

/-- The calibration produced by loading the all-ones intrinsics and zero
poses in Format A with `trig0`. -/
def cal4 : Calibration :=
  { cal_intrinsics := ![ones8, ones8]
    cal_extrinsics := T0id * matInv T0id
    trans_extrinsics := matInv T0id }

/-- The design matrix of the concrete round-trip instance: `cal0` with the
point (0,0,1), whose projections are (1,1) on sensor 0 and (2,1) on
sensor 1. -/
def M0 : Matrix (Fin 4) (Fin 3) ℚ := triM cal0 1 1 2 1

/-- The normal-equations least-squares solution for the concrete instance
`M0`, written with the Mathlib matrix inverse as the specification states
it. -/
noncomputable def p2spec : Fin 3 → ℚ :=
  ((M0ᵀ * M0)⁻¹ * M0ᵀ).mulVec (triR cal0 2 1)

/-- A scratch state with leftover junk from a previous call. -/
def dirtyScratch : TriScratch :=
  ⟨5, 7, 11, 13, Matrix.of fun _ _ => 2, Matrix.of fun _ _ => 2,
    Matrix.of fun _ _ => 2, fun _ => 3, fun _ => 4, fun _ => 6, 17, 19⟩

theorem goodTrig0 : GoodTrig trig0 := by
  intro theta
  norm_num [trig0]

theorem F2T_row0 (cal : Calibration) (k : Fin 4) :
    F2T cal 0 k = cal.cal_intrinsics 1 2 * cal.cal_extrinsics 0 k +
      cal.cal_intrinsics 1 4 * cal.cal_extrinsics 1 k +
      cal.cal_intrinsics 1 0 * cal.cal_extrinsics 2 k := by
  simp [F2T, F2mat, Matrix.mul_apply, Fin.sum_univ_four]

theorem F2T_row1 (cal : Calibration) (k : Fin 4) :
    F2T cal 1 k = cal.cal_intrinsics 1 3 * cal.cal_extrinsics 1 k +
      cal.cal_intrinsics 1 1 * cal.cal_extrinsics 2 k := by
  simp [F2T, F2mat, Matrix.mul_apply, Fin.sum_univ_four]

theorem F2T_row2 (cal : Calibration) (k : Fin 4) :
    F2T cal 2 k = cal.cal_extrinsics 2 k := by
  simp [F2T, F2mat, Matrix.mul_apply, Fin.sum_univ_four]

/-- C10: in `project_camera_0_to_sensor_1`, whenever the homogeneous depth
psi2 of the input point is nonzero, the recovered depth z2 equals exactly 1
(the third row of F2 is (0,0,1,0), so the third row of the projection matrix
is the third row of the extrinsics and z2 = psi2/psi2), hence the sanity
assertion on z2 always holds and the operation returns the projected sensor
coordinates rather than reaching an error branch. -/
theorem claim_C10_depth_always_one (cal : Calibration) (xc yc zc : ℚ)
    (h : psi2 cal xc yc zc ≠ 0) :
    z2_val cal xc yc zc = 1 ∧
      project_camera_0_to_sensor_1 cal xc yc zc =
        .ok (xs2_val cal xc yc zc, ys2_val cal xc yc zc) := by
  have hz : z2_val cal xc yc zc = 1 := by
    unfold z2_val
    rw [F2T_row2, F2T_row2, F2T_row2, F2T_row2]
    rw [show cal.cal_extrinsics 2 0 * xc + cal.cal_extrinsics 2 1 * yc +
      cal.cal_extrinsics 2 2 * zc + cal.cal_extrinsics 2 3 = psi2 cal xc yc zc from rfl]
    exact one_div_mul_cancel h
  refine ⟨hz, ?_⟩
  unfold project_camera_0_to_sensor_1
  rw [if_neg h, if_pos]
  rw [hz]
  norm_num

theorem claim_C10_depth_always_one_witness :
    psi2 cal0 0 0 1 ≠ 0 ∧
      (z2_val cal0 0 0 1 = 1 ∧
        project_camera_0_to_sensor_1 cal0 0 0 1 =
          .ok (xs2_val cal0 0 0 1, ys2_val cal0 0 0 1)) := by
  have h : psi2 cal0 0 0 1 ≠ 0 := by norm_num [psi2, cal0]
  exact ⟨h, claim_C10_depth_always_one cal0 0 0 1 h⟩

/-- C5: `correct_lens_distortion_radial` computes, in one pass, exactly the
claimed polynomial correction of the sensor coordinate, and it is the
identity mapping when all three distortion coefficients vanish. -/
theorem claim_C5_correct_radial (cal : Calibration) (cam : Fin 2) (x_s y_s : ℚ)
    (hcx : 0 < cal.cal_intrinsics cam 0) (hcy : 0 < cal.cal_intrinsics cam 1) :
    (correct_lens_distortion_radial cal cam x_s y_s =
      (x_s - (cal.cal_intrinsics cam 5 *
          (((x_s - cal.cal_intrinsics cam 0) / cal.cal_intrinsics cam 0) ^ 2 +
           ((y_s - cal.cal_intrinsics cam 1) / cal.cal_intrinsics cam 1) ^ 2) +
         cal.cal_intrinsics cam 6 *
          (((x_s - cal.cal_intrinsics cam 0) / cal.cal_intrinsics cam 0) ^ 2 +
           ((y_s - cal.cal_intrinsics cam 1) / cal.cal_intrinsics cam 1) ^ 2) ^ 2 +
         cal.cal_intrinsics cam 7 *
          (((x_s - cal.cal_intrinsics cam 0) / cal.cal_intrinsics cam 0) ^ 2 +
           ((y_s - cal.cal_intrinsics cam 1) / cal.cal_intrinsics cam 1) ^ 2) ^ 3) *
        ((x_s - cal.cal_intrinsics cam 0) / cal.cal_intrinsics cam 0) *
        cal.cal_intrinsics cam 0,
       y_s - (cal.cal_intrinsics cam 5 *
          (((x_s - cal.cal_intrinsics cam 0) / cal.cal_intrinsics cam 0) ^ 2 +
           ((y_s - cal.cal_intrinsics cam 1) / cal.cal_intrinsics cam 1) ^ 2) +
         cal.cal_intrinsics cam 6 *
          (((x_s - cal.cal_intrinsics cam 0) / cal.cal_intrinsics cam 0) ^ 2 +
           ((y_s - cal.cal_intrinsics cam 1) / cal.cal_intrinsics cam 1) ^ 2) ^ 2 +
         cal.cal_intrinsics cam 7 *
          (((x_s - cal.cal_intrinsics cam 0) / cal.cal_intrinsics cam 0) ^ 2 +
           ((y_s - cal.cal_intrinsics cam 1) / cal.cal_intrinsics cam 1) ^ 2) ^ 3) *
        ((y_s - cal.cal_intrinsics cam 1) / cal.cal_intrinsics cam 1) *
        cal.cal_intrinsics cam 1)) ∧
    (cal.cal_intrinsics cam 5 = 0 → cal.cal_intrinsics cam 6 = 0 →
      cal.cal_intrinsics cam 7 = 0 →
      correct_lens_distortion_radial cal cam x_s y_s = (x_s, y_s)) := by
  constructor
  · unfold correct_lens_distortion_radial
    refine Prod.ext ?_ ?_ <;> dsimp only <;> ring
  · intro h5 h6 h7
    unfold correct_lens_distortion_radial
    rw [h5, h6, h7]
    refine Prod.ext ?_ ?_ <;> dsimp only <;> ring

theorem claim_C5_correct_radial_witness :
    0 < cal0.cal_intrinsics 0 0 ∧ 0 < cal0.cal_intrinsics 0 1 ∧
      correct_lens_distortion_radial cal0 0 3 4 = (3, 4) := by
  have hcx : 0 < cal0.cal_intrinsics 0 0 := by decide
  have hcy : 0 < cal0.cal_intrinsics 0 1 := by decide
  exact ⟨hcx, hcy,
    (claim_C5_correct_radial cal0 0 3 4 hcx hcy).2 (by decide) (by decide) (by decide)⟩

/-- C3: with no estimated ProjectiveTransform (the `projectives_` member
still absent, as in the freshly constructed state), the direct left-to-right
sensor mapper fails with NotInitializedError, and in particular it never
returns coordinates in that state. -/
theorem claim_C3_not_initialized (st : TriState) (c : Calibration) (xl yl : ℚ)
    (h : st.projectives = none) :
    project_left_to_right_sensor_coords st xl yl = .error .NotInitializedError ∧
      project_left_to_right_sensor_coords (initTriState c) xl yl =
        .error .NotInitializedError := by
  constructor
  · unfold project_left_to_right_sensor_coords
    rw [h]
  · rfl

theorem claim_C3_not_initialized_witness :
    (initTriState cal0).projectives = none ∧
      (project_left_to_right_sensor_coords (initTriState cal0) 3 4 =
          .error .NotInitializedError ∧
        project_left_to_right_sensor_coords (initTriState cal0) 3 4 =
          .error .NotInitializedError) := by
  exact ⟨rfl, claim_C3_not_initialized (initTriState cal0) cal0 3 4 rfl⟩

/-- C8: the projective-transform estimator fails with InsufficientDataError
whenever the correspondence set read from the point source has fewer than 4
points (each a line of 4 numeric fields); the call returns the error, so no
DLT estimate is produced and the stored ProjectiveTransform cannot be
replaced (only the success path returns an updated state). -/
theorem claim_C8_insufficient_data
    (opt : (Fin 8 → ℚ) → Option ((Fin 8 → ℚ) × ℕ))
    (lines : List (List ℚ)) (st : TriState)
    (hfields : ∀ l ∈ lines, l.length = 4) (hcount : lines.length < 4) :
    estimate_projective_transform opt lines st =
      .error .InsufficientDataError := by
  unfold estimate_projective_transform
  rw [if_neg, if_pos hcount]
  simp only [List.any_eq_true, decide_eq_true_eq, not_exists, not_and]
  intro l hl
  simp [hfields l hl]

theorem claim_C8_insufficient_data_witness :
    (∀ l ∈ [[(1:ℚ), 2, 3, 4], [5, 6, 7, 8]], l.length = 4) ∧
      ([[(1:ℚ), 2, 3, 4], [5, 6, 7, 8]] : List (List ℚ)).length < 4 ∧
      estimate_projective_transform (fun _ => none)
        [[(1:ℚ), 2, 3, 4], [5, 6, 7, 8]] (initTriState cal0) =
        .error .InsufficientDataError := by
  refine ⟨by decide, by decide, ?_⟩
  exact claim_C8_insufficient_data (fun _ => none) _ (initTriState cal0)
    (by decide) (by decide)

/-- C9: `triangulate` is a pure function of its sensor-coordinate arguments,
the distortion flag and the stored Calibration: the returned points do not
depend on the contents of the function-local persistent scratch buffers left
by earlier calls (they are fully overwritten before use), and a call leaves
the Calibration and the stored ProjectiveTransform unchanged. -/
theorem claim_C9_triangulate_pure (s1 s2 : TriState) (x0 y0 x1 y1 : ℚ)
    (b : Bool) (hcal : s1.calib = s2.calib) :
    (triangulate s1 x0 y0 x1 y1 b).1 = (triangulate s2 x0 y0 x1 y1 b).1 ∧
      (triangulate s1 x0 y0 x1 y1 b).2.calib = s1.calib ∧
      (triangulate s1 x0 y0 x1 y1 b).2.projectives = s1.projectives := by
  obtain ⟨c1, pr1, sc1⟩ := s1
  obtain ⟨c2, pr2, sc2⟩ := s2
  simp only [TriState.mk.injEq] at hcal ⊢
  cases hcal
  refine ⟨?_, ?_, ?_⟩ <;>
    · simp only [triangulate]
      split_ifs <;> rfl

theorem claim_C9_triangulate_pure_witness :
    (⟨cal0, none, zeroScratch⟩ : TriState).calib =
        (⟨cal0, none, dirtyScratch⟩ : TriState).calib ∧
      ((triangulate ⟨cal0, none, zeroScratch⟩ 1 1 2 1 false).1 =
          (triangulate ⟨cal0, none, dirtyScratch⟩ 1 1 2 1 false).1 ∧
        (triangulate ⟨cal0, none, zeroScratch⟩ 1 1 2 1 false).2.calib = cal0 ∧
        (triangulate ⟨cal0, none, zeroScratch⟩ 1 1 2 1 false).2.projectives =
          none) := by
  exact ⟨rfl, claim_C9_triangulate_pure ⟨cal0, none, zeroScratch⟩
    ⟨cal0, none, dirtyScratch⟩ 1 1 2 1 false rfl⟩

theorem checkIntrinsics_ok {c c' : Calibration}
    (h : checkIntrinsics c = .ok c') :
    c' = c ∧ 0 < c.cal_intrinsics 0 0 ∧ 0 < c.cal_intrinsics 0 1 ∧
      0 < c.cal_intrinsics 1 0 ∧ 0 < c.cal_intrinsics 1 1 := by
  unfold checkIntrinsics at h
  split_ifs at h with h1 h2 h3 h4 <;> simp_all

theorem checkIntrinsics_err {c : Calibration}
    (h : c.cal_intrinsics 0 0 ≤ 0 ∨ c.cal_intrinsics 0 1 ≤ 0 ∨
      c.cal_intrinsics 1 0 ≤ 0 ∨ c.cal_intrinsics 1 1 ≤ 0) :
    checkIntrinsics c = .error .InvalidIntrinsicsError := by
  unfold checkIntrinsics
  split_ifs <;> simp_all

/-- C6: a Format B calibration load with exactly 22 numeric values (hence no
custom world-transform block) that succeeds leaves the stored
camera0-to-world transform equal to the 4x4 identity matrix. -/
theorem claim_C6_formatB_default_world (trig : ℚ → ℚ × ℚ) (vals : List ℚ)
    (c : Calibration) (hlen : vals.length = 22)
    (h : loadFormatB trig vals = .ok c) :
    c.trans_extrinsics = 1 := by
  unfold loadFormatB at h
  rw [if_pos (Or.inl hlen), if_neg (by rw [hlen]; norm_num)] at h
  obtain ⟨hc, -⟩ := checkIntrinsics_ok h
  rw [hc]

theorem claim_C6_formatB_default_world_witness :
    vals22.length = 22 ∧ cal6.trans_extrinsics = 1 := by
  refine ⟨by decide, claim_C6_formatB_default_world trig0 vals22 cal6 (by decide) ?_⟩
  simp only [loadFormatB]
  rw [if_pos (Or.inl (by decide)), if_neg (by decide)]
  unfold checkIntrinsics
  norm_num [vals22, cal6]

/-- C4: a successful Format A load with camera poses T0 and T1 (each
produced from its six Cardan-Bryant values) stores the matrix inverse of T0
as the camera0-to-world transform and the product T1 * T0 inverse as the
camera0-to-camera1 transform. -/
theorem claim_C4_formatA_transforms (trig : ℚ → ℚ × ℚ)
    (intr0 intr1 : Fin 8 → ℚ) (o0 o1 : Fin 6 → ℚ) (c : Calibration)
    (h : loadFormatA trig intr0 intr1 o0 o1 = .ok c) :
    c.trans_extrinsics =
      (convert_CB_angles_to_T trig (o0 0) (o0 1) (o0 2) (o0 3) (o0 4) (o0 5))⁻¹ ∧
    c.cal_extrinsics =
      convert_CB_angles_to_T trig (o1 0) (o1 1) (o1 2) (o1 3) (o1 4) (o1 5) *
        (convert_CB_angles_to_T trig (o0 0) (o0 1) (o0 2) (o0 3) (o0 4) (o0 5))⁻¹ := by
  simp only [loadFormatA] at h
  split_ifs at h with hdet
  obtain ⟨hc, -⟩ := checkIntrinsics_ok h
  rw [hc, ← matInv_eq_inv]
  exact ⟨rfl, rfl⟩

theorem claim_C4_formatA_transforms_witness :
    cal4.trans_extrinsics = T0id⁻¹ ∧ cal4.cal_extrinsics = T0id * T0id⁻¹ := by
  refine claim_C4_formatA_transforms trig0 ones8 ones8 zeros6 zeros6 cal4 ?_
  simp only [loadFormatA]
  rw [if_neg (by rw [det_convert_CB_good goodTrig0]; norm_num)]
  unfold checkIntrinsics
  norm_num [ones8, cal4, T0id]

/-- C7: for either calibration format, once the file content parses (and,
for Format A with genuine trigonometry, camera 0's pose is invertible so the
load reaches the validation step), a non-positive parsed cx or cy of either
camera makes the load fail with InvalidIntrinsicsError, and conversely any
load that returns a Calibration guarantees positive cx and cy for both
cameras. -/
theorem claim_C7_principal_point_validation (trig : ℚ → ℚ × ℚ)
    (hg : GoodTrig trig) (intr0 intr1 : Fin 8 → ℚ) (o0 o1 : Fin 6 → ℚ)
    (vals : List ℚ) :
    (∀ c, loadFormatA trig intr0 intr1 o0 o1 = .ok c →
      0 < c.cal_intrinsics 0 0 ∧ 0 < c.cal_intrinsics 0 1 ∧
        0 < c.cal_intrinsics 1 0 ∧ 0 < c.cal_intrinsics 1 1) ∧
    ((intr0 0 ≤ 0 ∨ intr0 1 ≤ 0 ∨ intr1 0 ≤ 0 ∨ intr1 1 ≤ 0) →
      loadFormatA trig intr0 intr1 o0 o1 = .error .InvalidIntrinsicsError) ∧
    (∀ c, loadFormatB trig vals = .ok c →
      0 < c.cal_intrinsics 0 0 ∧ 0 < c.cal_intrinsics 0 1 ∧
        0 < c.cal_intrinsics 1 0 ∧ 0 < c.cal_intrinsics 1 1) ∧
    ((vals.length = 22 ∨ vals.length = 28) →
      (vals.getD 0 0 ≤ 0 ∨ vals.getD 1 0 ≤ 0 ∨
        vals.getD 8 0 ≤ 0 ∨ vals.getD 9 0 ≤ 0) →
      loadFormatB trig vals = .error .InvalidIntrinsicsError) := by
  refine ⟨?_, ?_, ?_, ?_⟩
  · intro c h
    simp only [loadFormatA] at h
    split_ifs at h with hdet
    obtain ⟨hc, hpos⟩ := checkIntrinsics_ok h
    rw [hc]
    exact hpos
  · intro hbad
    simp only [loadFormatA]
    rw [if_neg (by rw [det_convert_CB_good hg]; norm_num)]
    refine checkIntrinsics_err ?_
    simpa using hbad
  · intro c h
    simp only [loadFormatB] at h
    split_ifs at h <;>
      · obtain ⟨hc, hpos⟩ := checkIntrinsics_ok h
        rw [hc]
        exact hpos
  · intro hlen hbad
    simp only [loadFormatB]
    rw [if_pos hlen]
    split_ifs with h28 hdet
    · exact absurd hdet (by rw [det_convert_CB_good hg]; norm_num)
    · exact checkIntrinsics_err (by simpa using hbad)
    · exact checkIntrinsics_err (by simpa using hbad)

theorem claim_C7_principal_point_validation_witness :
    GoodTrig trig0 ∧
      loadFormatA trig0 zeroIntr zeroIntr zeros6 zeros6 =
        .error .InvalidIntrinsicsError := by
  refine ⟨goodTrig0, ?_⟩
  exact (claim_C7_principal_point_validation trig0 goodTrig0 zeroIntr zeroIntr
    zeros6 zeros6 []).2.1 (Or.inl (by norm_num [zeroIntr]))

theorem M0_entries :
    M0 = Matrix.of ![![1, 0, 0], ![0, 1, 0], ![1, 0, -1], ![0, 1, 0]] := by
  ext i j
  fin_cases i <;> fin_cases j <;>
    norm_num [M0, triM, cal0, Matrix.vecHead, Matrix.vecTail]

theorem M0_transpose :
    M0ᵀ = Matrix.of ![![1, 0, 1, 0], ![0, 1, 0, 1], ![0, 0, -1, 0]] := by
  ext i j
  simp only [Matrix.transpose_apply, M0_entries]
  fin_cases i <;> fin_cases j <;>
    norm_num [Matrix.vecHead, Matrix.vecTail]

theorem M0_normal :
    M0ᵀ * M0 = Matrix.of ![![2, 0, -1], ![0, 2, 0], ![-1, 0, 1]] := by
  rw [M0_transpose, M0_entries]
  ext i j
  fin_cases i <;> fin_cases j <;>
    norm_num [Matrix.mul_apply, Fin.sum_univ_four, Matrix.vecHead, Matrix.vecTail]

/-- C2: for every stored Calibration and sensor-coordinate pair,
`triangulate` builds the 4x3 design matrix M and right-hand side r of
section 4.4 from the (optionally distortion-corrected) coordinates, and when
M-transpose-M is invertible returns as camera-0-frame point the
normal-equations least-squares solution (pseudo-inverse applied to r, with
homogeneous 4th coordinate fixed at 1) and as world-frame point the
camera0-to-world transform applied to that homogeneous point; when
M-transpose-M is not invertible it fails with SingularMatrixError. -/
theorem claim_C2_triangulate_normal_equations (st : TriState)
    (x0 y0 x1 y1 : ℚ) (b : Bool) (M : Matrix (Fin 4) (Fin 3) ℚ)
    (rv : Fin 4 → ℚ) (p : Fin 3 → ℚ)
    (hM : M = triM st.calib
      (if b then correct_lens_distortion_radial st.calib 0 x0 y0 else (x0, y0)).1
      (if b then correct_lens_distortion_radial st.calib 0 x0 y0 else (x0, y0)).2
      (if b then correct_lens_distortion_radial st.calib 1 x1 y1 else (x1, y1)).1
      (if b then correct_lens_distortion_radial st.calib 1 x1 y1 else (x1, y1)).2)
    (hrv : rv = triR st.calib
      (if b then correct_lens_distortion_radial st.calib 1 x1 y1 else (x1, y1)).1
      (if b then correct_lens_distortion_radial st.calib 1 x1 y1 else (x1, y1)).2)
    (hp : p = ((Mᵀ * M)⁻¹ * Mᵀ).mulVec rv) :
    (IsUnit (Mᵀ * M) →
      (triangulate st x0 y0 x1 y1 b).1 =
        .ok ((p 0, p 1, p 2),
          (st.calib.trans_extrinsics.mulVec ![p 0, p 1, p 2, 1] 0,
           st.calib.trans_extrinsics.mulVec ![p 0, p 1, p 2, 1] 1,
           st.calib.trans_extrinsics.mulVec ![p 0, p 1, p 2, 1] 2))) ∧
    (¬ IsUnit (Mᵀ * M) →
      (triangulate st x0 y0 x1 y1 b).1 = .error .SingularMatrixError) := by
  subst hM hrv hp
  constructor
  · intro hU
    have hdet : (((triM st.calib
        (if b then correct_lens_distortion_radial st.calib 0 x0 y0 else (x0, y0)).1
        (if b then correct_lens_distortion_radial st.calib 0 x0 y0 else (x0, y0)).2
        (if b then correct_lens_distortion_radial st.calib 1 x1 y1 else (x1, y1)).1
        (if b then correct_lens_distortion_radial st.calib 1 x1 y1 else (x1, y1)).2)ᵀ *
        triM st.calib
        (if b then correct_lens_distortion_radial st.calib 0 x0 y0 else (x0, y0)).1
        (if b then correct_lens_distortion_radial st.calib 0 x0 y0 else (x0, y0)).2
        (if b then correct_lens_distortion_radial st.calib 1 x1 y1 else (x1, y1)).1
        (if b then correct_lens_distortion_radial st.calib 1 x1 y1 else (x1, y1)).2).det ≠ 0) := by
      rw [Matrix.isUnit_iff_isUnit_det] at hU
      exact isUnit_iff_ne_zero.mp hU
    simp only [triangulate]
    rw [if_neg hdet, matInv_eq_inv]
  · intro hU
    have hdet : (((triM st.calib
        (if b then correct_lens_distortion_radial st.calib 0 x0 y0 else (x0, y0)).1
        (if b then correct_lens_distortion_radial st.calib 0 x0 y0 else (x0, y0)).2
        (if b then correct_lens_distortion_radial st.calib 1 x1 y1 else (x1, y1)).1
        (if b then correct_lens_distortion_radial st.calib 1 x1 y1 else (x1, y1)).2)ᵀ *
        triM st.calib
        (if b then correct_lens_distortion_radial st.calib 0 x0 y0 else (x0, y0)).1
        (if b then correct_lens_distortion_radial st.calib 0 x0 y0 else (x0, y0)).2
        (if b then correct_lens_distortion_radial st.calib 1 x1 y1 else (x1, y1)).1
        (if b then correct_lens_distortion_radial st.calib 1 x1 y1 else (x1, y1)).2).det = 0) := by
      by_contra h0
      exact hU ((Matrix.isUnit_iff_isUnit_det _).mpr (isUnit_iff_ne_zero.mpr h0))
    simp only [triangulate]
    rw [if_pos hdet]

theorem claim_C2_triangulate_normal_equations_witness :
    IsUnit (M0ᵀ * M0) ∧
      (triangulate (initTriState cal0) 1 1 2 1 false).1 =
        .ok ((p2spec 0, p2spec 1, p2spec 2),
          (cal0.trans_extrinsics.mulVec ![p2spec 0, p2spec 1, p2spec 2, 1] 0,
           cal0.trans_extrinsics.mulVec ![p2spec 0, p2spec 1, p2spec 2, 1] 1,
           cal0.trans_extrinsics.mulVec ![p2spec 0, p2spec 1, p2spec 2, 1] 2)) := by
  have hU : IsUnit (M0ᵀ * M0) := by
    rw [Matrix.isUnit_iff_isUnit_det, isUnit_iff_ne_zero, M0_normal]
    norm_num [Matrix.det_fin_three]
  exact ⟨hU, (claim_C2_triangulate_normal_equations (initTriState cal0) 1 1 2 1
    false M0 (triR cal0 2 1) p2spec rfl rfl rfl).1 hU⟩

/-- C1: round-trip law over exact rational arithmetic.  For any calibration
with positive principal points, and any camera-0-frame point whose forward
projections to both sensors succeed (nonzero camera-0 depth for the pinhole
projection of camera 0 and nonzero camera-1 homogeneous depth for
`project_camera_0_to_sensor_1`), if the triangulation normal matrix built
from the two projected sensor coordinates is invertible then `triangulate`
on those coordinates without distortion correction returns exactly the
original camera-0-frame point. -/
theorem claim_C1_roundtrip (st : TriState) (xc yc zc xs0 ys0 xs1 ys1 : ℚ)
    (hcx0 : 0 < st.calib.cal_intrinsics 0 0)
    (hcy0 : 0 < st.calib.cal_intrinsics 0 1)
    (hcx1 : 0 < st.calib.cal_intrinsics 1 0)
    (hcy1 : 0 < st.calib.cal_intrinsics 1 1)
    (h0 : project_camera_0_to_sensor_0 st.calib xc yc zc = .ok (xs0, ys0))
    (h1 : project_camera_0_to_sensor_1 st.calib xc yc zc = .ok (xs1, ys1))
    (hdet : ((triM st.calib xs0 ys0 xs1 ys1)ᵀ *
      triM st.calib xs0 ys0 xs1 ys1).det ≠ 0) :
    ((triangulate st xs0 ys0 xs1 ys1 false).1).map Prod.fst =
      .ok (xc, yc, zc) := by
  simp only [project_camera_0_to_sensor_0] at h0
  split_ifs at h0 with hzc
  rw [Except.ok.injEq, Prod.mk.injEq] at h0
  obtain ⟨hxs0, hys0⟩ := h0
  simp only [project_camera_0_to_sensor_1] at h1
  split_ifs at h1 with hpsi hz2
  rw [Except.ok.injEq, Prod.mk.injEq] at h1
  obtain ⟨hxs1, hys1⟩ := h1
  simp only [psi2] at hpsi
  have key : ∀ i, (triM st.calib xs0 ys0 xs1 ys1).mulVec ![xc, yc, zc] i =
      triR st.calib xs1 ys1 i := by
    intro i
    fin_cases i
    · simp only [Matrix.mulVec, Matrix.dotProduct, Fin.sum_univ_three, triM,
        triR, Matrix.of_apply, Matrix.cons_val_zero, Matrix.cons_val_one,
        Matrix.head_cons, Matrix.cons_val_two, Matrix.vecHead, Matrix.vecTail,
        Function.comp]
      rw [← hxs0]
      field_simp
      try ring
    · simp only [Matrix.mulVec, Matrix.dotProduct, Fin.sum_univ_three, triM,
        triR, Matrix.of_apply, Matrix.cons_val_zero, Matrix.cons_val_one,
        Matrix.head_cons, Matrix.cons_val_two, Matrix.vecHead, Matrix.vecTail,
        Function.comp]
      rw [← hys0]
      field_simp
      try ring
    · simp only [Matrix.mulVec, Matrix.dotProduct, Fin.sum_univ_three, triM,
        triR, Matrix.of_apply, Matrix.cons_val_zero, Matrix.cons_val_one,
        Matrix.head_cons, Matrix.cons_val_two, Matrix.cons_val_three,
        Matrix.vecHead, Matrix.vecTail, Function.comp]
      rw [← hxs1]
      simp only [xs2_val, F2T_row0, psi2]
      field_simp
      try ring
    · simp only [Matrix.mulVec, Matrix.dotProduct, Fin.sum_univ_three, triM,
        triR, Matrix.of_apply, Matrix.cons_val_zero, Matrix.cons_val_one,
        Matrix.head_cons, Matrix.cons_val_two, Matrix.cons_val_three,
        Matrix.vecHead, Matrix.vecTail, Function.comp]
      rw [← hys1]
      simp only [ys2_val, F2T_row1, psi2]
      field_simp
      try ring
  have hkey : (triM st.calib xs0 ys0 xs1 ys1).mulVec ![xc, yc, zc] =
      triR st.calib xs1 ys1 := funext key
  have hp : (matInv ((triM st.calib xs0 ys0 xs1 ys1)ᵀ *
        triM st.calib xs0 ys0 xs1 ys1) *
        (triM st.calib xs0 ys0 xs1 ys1)ᵀ).mulVec (triR st.calib xs1 ys1) =
      ![xc, yc, zc] := by
    rw [← hkey, Matrix.mulVec_mulVec, Matrix.mul_assoc,
      matInv_mul _ hdet, Matrix.one_mulVec]
  simp only [triangulate, Bool.false_eq_true, if_false]
  rw [if_neg hdet]
  simp only [Except.map, hp]
  simp

theorem claim_C1_roundtrip_witness :
    0 < cal0.cal_intrinsics 0 0 ∧ 0 < cal0.cal_intrinsics 0 1 ∧
      0 < cal0.cal_intrinsics 1 0 ∧ 0 < cal0.cal_intrinsics 1 1 ∧
      project_camera_0_to_sensor_0 cal0 0 0 1 = .ok (1, 1) ∧
      project_camera_0_to_sensor_1 cal0 0 0 1 = .ok (2, 1) ∧
      ((triM cal0 1 1 2 1)ᵀ * triM cal0 1 1 2 1).det ≠ 0 ∧
      ((triangulate (initTriState cal0) 1 1 2 1 false).1).map Prod.fst =
        .ok (0, 0, 1) := by
  have hcx0 : 0 < cal0.cal_intrinsics 0 0 := by decide
  have hcy0 : 0 < cal0.cal_intrinsics 0 1 := by decide
  have hcx1 : 0 < cal0.cal_intrinsics 1 0 := by decide
  have hcy1 : 0 < cal0.cal_intrinsics 1 1 := by decide
  have h0 : project_camera_0_to_sensor_0 cal0 0 0 1 = .ok (1, 1) := by
    norm_num [project_camera_0_to_sensor_0, cal0, Matrix.vecHead, Matrix.vecTail]
  have h1 : project_camera_0_to_sensor_1 cal0 0 0 1 = .ok (2, 1) := by
    norm_num [project_camera_0_to_sensor_1, xs2_val, ys2_val, z2_val, psi2,
      F2T, F2mat, cal0, Matrix.mul_apply, Fin.sum_univ_four, Matrix.vecHead,
      Matrix.vecTail]
  have hdet : ((triM cal0 1 1 2 1)ᵀ * triM cal0 1 1 2 1).det ≠ 0 := by
    have h : (M0ᵀ * M0).det ≠ 0 := by
      rw [M0_normal]
      norm_num [Matrix.det_fin_three]
    exact h
  exact ⟨hcx0, hcy0, hcx1, hcy1, h0, h1, hdet,
    claim_C1_roundtrip (initTriState cal0) 0 0 1 1 1 2 1 hcx0 hcy0 hcx1 hcy1
      h0 h1 hdet⟩

end DICe
